import Mathlib

/-!
# Verification of `LatestArtifactStrategy`
(`tfx/dsl/input_resolution/strategies/latest_artifact_strategy.py`)

Shallow embedding of the latest-N artifact selection strategy:

* `_resolve` sorts each channel's artifact list descending by `id`
  (Python `sorted(artifact_list, key=lambda a: a.id, reverse=True)`,
  a stable sort) and truncates it with the Python slice
  `sorted_artifact_list[:min(len(sorted_artifact_list), desired)]`.
* `resolve_artifacts` returns the resolved mapping iff every resolved
  list has length `>= desired`, and `None` otherwise.

Python dicts preserve insertion order, so an input mapping is embedded
as an association list `List (String × List Artifact)`.  The
`desired_num_of_artifacts` configuration value is a Python `int`,
embedded as `Int` (the code performs no validation on it).
-/

/-- An artifact record.  The strategy only reads the numeric `id`
field; `tag` stands for the rest of the (opaque) record, so that two
distinct artifacts may carry the same `id`. -/
structure Artifact where
  id : Int
  tag : Nat
deriving DecidableEq

/-- The ordering used by `sorted(..., key=lambda a: a.id, reverse=True)`:
`a` may come before `b` iff `b.id ≤ a.id` (descending by id). -/
def artifactGe (a b : Artifact) : Prop := b.id ≤ a.id

instance : DecidableRel artifactGe := fun a b => Int.decLe b.id a.id

instance : IsTotal Artifact artifactGe := ⟨fun a b => Int.le_total b.id a.id⟩

instance : IsTrans Artifact artifactGe := ⟨fun _ _ _ h1 h2 => le_trans h2 h1⟩

/-- Python's `sorted(artifact_list, key=lambda a: a.id, reverse=True)`.
Python's sort is stable; a stable sort for a total preorder is unique,
and `List.insertionSort artifactGe` (insert before the first element
whose id is `≤` the inserted one) is that stable descending sort. -/
def pySorted (artifact_list : List Artifact) : List Artifact :=
  artifact_list.insertionSort artifactGe

/-- Python list slicing `l[:n]` for an arbitrary (possibly negative)
integer bound: a nonnegative `n` takes the first `n` elements (clamped
at the length), a negative `n` counts from the end. -/
def pySliceUpTo (l : List Artifact) (n : Int) : List Artifact :=
  if 0 ≤ n then l.take n.toNat else l.take (l.length - (-n).toNat)

/-- The body of the loop in `LatestArtifactStrategy._resolve` for one
channel: `sorted_artifact_list[:min(len(sorted_artifact_list), d)]`
where `sorted_artifact_list = sorted(artifact_list, key=lambda a: a.id,
reverse=True)` and `d` is `self._desired_num_of_artifact`. -/
def resolveChannel (d : Int) (artifact_list : List Artifact) : List Artifact :=
  let sorted_artifact_list := pySorted artifact_list
  pySliceUpTo sorted_artifact_list (min (sorted_artifact_list.length : Int) d)

/-- `LatestArtifactStrategy._resolve`: builds the result mapping with
the same keys in the same iteration order, each artifact list replaced
by its sorted-and-truncated version. -/
def _resolve (d : Int) (input_dict : List (String × List Artifact)) :
    List (String × List Artifact) :=
  input_dict.map (fun kv => (kv.1, resolveChannel d kv.2))

/-- `LatestArtifactStrategy.resolve_artifacts`: returns the resolved
mapping if `len(artifact_list) >= d` for every resolved list, and
`None` (here `none`) otherwise.  The MLMD store argument is unused by
the Python code and omitted. -/
def resolve_artifacts (d : Int) (input_dict : List (String × List Artifact)) :
    Option (List (String × List Artifact)) :=
  let resolved_dict := _resolve d input_dict
  if resolved_dict.all (fun kv => decide (d ≤ (kv.2.length : Int))) then
    some resolved_dict
  else
    none

/-! ## Heap model for the no-mutation claim

The functional embedding above cannot express mutation, so the
aliasing structure of `_resolve` is modelled explicitly: list objects
live in a heap (indexed by allocation order) and the input mapping
holds references into it.  `sorted(...)` returns a new list object, so
the model allocates a fresh cell for each per-channel result and never
writes to an existing cell. -/

abbrev ListHeap := List (List Artifact)

/-- Heap-level `_resolve`: for each channel, read the referenced list,
allocate the sorted-and-truncated copy as a fresh cell, and return a
mapping of references to the fresh cells together with the final
heap. -/
def resolveHeap (d : Int) :
    List (String × Nat) → ListHeap → List (String × Nat) × ListHeap
  | [], h => ([], h)
  | (k, r) :: rest, h =>
    let out := resolveChannel d (h.getD r [])
    let step := resolveHeap d rest (h ++ [out])
    ((k, h.length) :: step.1, step.2)

/-- Heap-level `resolve_artifacts`: run the heap-level `_resolve`, then
perform the (read-only) min-count check on the resolved lists. -/
def resolve_artifactsHeap (d : Int) (input_dict : List (String × Nat)) (h : ListHeap) :
    Option (List (String × Nat)) × ListHeap :=
  let step := resolveHeap d input_dict h
  if step.1.all (fun kv => decide (d ≤ ((step.2.getD kv.2 []).length : Int))) then
    (some step.1, step.2)
  else
    (none, step.2)

/-! ## Concrete inputs used by witnesses -/

def exInput1 : List (String × List Artifact) := [("model", [⟨3, 0⟩])]

def exInput2 : List (String × List Artifact) :=
  [("model", [⟨3, 0⟩]), ("data", [⟨1, 1⟩, ⟨2, 2⟩])]

def exInput3 : List (String × List Artifact) :=
  [("model", [⟨3, 0⟩, ⟨7, 1⟩, ⟨5, 2⟩])]

def exHeapInput : List (String × Nat) := [("model", 0)]

def exHeap : ListHeap := [[⟨3, 0⟩]]

/-! ## Supporting lemmas -/

theorem pySorted_perm (l : List Artifact) : List.Perm (pySorted l) l :=
  List.perm_insertionSort artifactGe l

theorem pySorted_length (l : List Artifact) : (pySorted l).length = l.length :=
  (pySorted_perm l).length_eq

theorem pySorted_sorted (l : List Artifact) : (pySorted l).Pairwise artifactGe :=
  List.sorted_insertionSort artifactGe l

/-- Stability of the sort: for every id value `v`, the tied elements of
the sorted list are exactly the tied elements of the input, in the same
relative order. -/
theorem pySorted_filter (l : List Artifact) (v : Int) :
    (pySorted l).filter (fun a => a.id == v) = l.filter (fun a => a.id == v) := by
  have hpw : (l.filter (fun a => a.id == v)).Pairwise artifactGe := by
    apply List.pairwise_of_forall_mem_list
    intro a ha b hb
    have ha' : a.id = v := by simpa using (List.mem_filter.mp ha).2
    have hb' : b.id = v := by simpa using (List.mem_filter.mp hb).2
    show b.id ≤ a.id
    omega
  have hsub : List.Sublist (l.filter (fun a => a.id == v)) (pySorted l) :=
    List.sublist_insertionSort hpw (List.filter_sublist l)
  have hsub2 := hsub.filter (fun a => a.id == v)
  rw [List.filter_filter] at hsub2
  simp only [Bool.and_self] at hsub2
  have hperm : List.Perm ((pySorted l).filter (fun a => a.id == v))
      (l.filter (fun a => a.id == v)) :=
    (pySorted_perm l).filter _
  exact (hsub2.eq_of_length hperm.length_eq.symm).symm

/-- A slice `l[:n]` is always a `take`. -/
theorem pySliceUpTo_eq_take (l : List Artifact) (n : Int) :
    ∃ m : Nat, pySliceUpTo l n = l.take m := by
  unfold pySliceUpTo
  split
  · exact ⟨n.toNat, rfl⟩
  · exact ⟨l.length - (-n).toNat, rfl⟩

theorem resolveChannel_eq_take (d : Int) (l : List Artifact) :
    ∃ m : Nat, resolveChannel d l = (pySorted l).take m :=
  pySliceUpTo_eq_take _ _

/-- For a nonnegative desired count, the per-channel output length is
`min (input length) d`. -/
theorem length_resolveChannel (d : Int) (hd : 0 ≤ d) (l : List Artifact) :
    ((resolveChannel d l).length : Int) = min (l.length : Int) d := by
  have hlen := pySorted_length l
  have hn : 0 ≤ min ((pySorted l).length : Int) d :=
    le_min (Int.ofNat_nonneg _) hd
  simp only [resolveChannel, pySliceUpTo, if_pos hn, List.length_take]
  omega

/-- The min-count check performed by `resolve_artifacts`, rephrased as a
condition on the input mapping. -/
theorem minCount_check_iff (d : Int) (hd : 0 ≤ d)
    (input_dict : List (String × List Artifact)) :
    ((_resolve d input_dict).all (fun kv => decide (d ≤ (kv.2.length : Int))) = true ↔
      ∀ kv ∈ input_dict, d ≤ (kv.2.length : Int)) := by
  unfold _resolve
  rw [List.all_map, List.all_eq_true]
  constructor
  · intro h kv hkv
    have h2 := h kv hkv
    simp only [Function.comp_apply, decide_eq_true_eq] at h2
    rw [length_resolveChannel d hd] at h2
    omega
  · intro h kv hkv
    have h2 := h kv hkv
    simp only [Function.comp_apply, decide_eq_true_eq]
    rw [length_resolveChannel d hd]
    omega

/-! ## Claim theorems -/

/-- C1: for `desired_count ≥ 1`, `resolve_artifacts` returns a
non-unresolved result iff every channel's input list has length
`≥ desired_count`; on success every channel's output has exactly
`desired_count` elements; if any single channel falls short the whole
result is the unresolved sentinel `none` (all-or-nothing). -/
theorem resolve_artifacts_all_or_nothing (d : Int) (hd : 1 ≤ d)
    (input_dict : List (String × List Artifact)) :
    ((resolve_artifacts d input_dict).isSome ↔
        ∀ kv ∈ input_dict, d ≤ (kv.2.length : Int)) ∧
    (∀ out, resolve_artifacts d input_dict = some out →
        ∀ kv ∈ out, (kv.2.length : Int) = d) ∧
    ((∃ kv ∈ input_dict, (kv.2.length : Int) < d) →
        resolve_artifacts d input_dict = none) := by
  have hd0 : 0 ≤ d := by omega
  by_cases hc : (_resolve d input_dict).all (fun kv => decide (d ≤ (kv.2.length : Int))) = true
  · have hmem := (minCount_check_iff d hd0 input_dict).mp hc
    have heq : resolve_artifacts d input_dict = some (_resolve d input_dict) := by
      simp [resolve_artifacts, hc]
    refine ⟨?_, ?_, ?_⟩
    · rw [heq]
      exact iff_of_true rfl hmem
    · intro out hout kv hkv
      rw [heq] at hout
      injection hout with hout
      subst hout
      obtain ⟨kv0, hkv0, rfl⟩ := List.mem_map.mp hkv
      have hlen := length_resolveChannel d hd0 kv0.2
      have hge := hmem kv0 hkv0
      show ((resolveChannel d kv0.2).length : Int) = d
      omega
    · rintro ⟨kv, hkv, hlt⟩
      exact absurd (hmem kv hkv) (by omega)
  · have hnone : resolve_artifacts d input_dict = none := by
      simp [resolve_artifacts, hc]
    refine ⟨?_, ?_, ?_⟩
    · rw [hnone]
      simp only [Option.isSome_none, Bool.false_eq_true, false_iff]
      intro hall
      exact hc ((minCount_check_iff d hd0 input_dict).mpr hall)
    · intro out hout
      rw [hnone] at hout
      simp at hout
    · intro _
      exact hnone

/-- C3: every per-channel output of `_resolve` is sorted descending by
id, and for each id value the tied elements of the output are an
initial run of the tied elements of the input, in input order (stable
sort, even through truncation). -/
theorem resolve_sorted_stable (d : Int) (input_dict : List (String × List Artifact)) :
    ∀ kv ∈ input_dict,
      (kv.1, resolveChannel d kv.2) ∈ _resolve d input_dict ∧
      (resolveChannel d kv.2).Pairwise artifactGe ∧
      ∀ v : Int, ∃ rest,
        kv.2.filter (fun a => a.id == v) =
          (resolveChannel d kv.2).filter (fun a => a.id == v) ++ rest := by
  intro kv hkv
  refine ⟨List.mem_map.mpr ⟨kv, hkv, rfl⟩, ?_, ?_⟩
  · obtain ⟨m, hm⟩ := resolveChannel_eq_take d kv.2
    rw [hm]
    exact (pySorted_sorted kv.2).sublist (List.take_sublist m _)
  · intro v
    obtain ⟨m, hm⟩ := resolveChannel_eq_take d kv.2
    refine ⟨((pySorted kv.2).drop m).filter (fun a => a.id == v), ?_⟩
    rw [hm, ← List.filter_append, List.take_append_drop, pySorted_filter]

/-- C4: for `desired_count ≥ 1`, every per-channel output equals the
first `min (length of the sorted list) desired_count` elements of the
descending-sorted input list, so its length never exceeds
`desired_count`. -/
theorem resolveChannel_truncation (d : Int) (hd : 1 ≤ d)
    (input_dict : List (String × List Artifact)) :
    ∀ kv ∈ input_dict,
      (kv.1, resolveChannel d kv.2) ∈ _resolve d input_dict ∧
      resolveChannel d kv.2 =
        (pySorted kv.2).take (min (pySorted kv.2).length d.toNat) ∧
      (resolveChannel d kv.2).length ≤ d.toNat := by
  intro kv hkv
  have htake : resolveChannel d kv.2 =
      (pySorted kv.2).take (min (pySorted kv.2).length d.toNat) := by
    have hn : 0 ≤ min ((pySorted kv.2).length : Int) d :=
      le_min (Int.ofNat_nonneg _) (by omega)
    simp only [resolveChannel, pySliceUpTo, if_pos hn]
    congr 1
    omega
  refine ⟨List.mem_map.mpr ⟨kv, hkv, rfl⟩, htake, ?_⟩
  rw [htake, List.length_take]
  omega

/-- C5: every artifact in a per-channel output of `_resolve` comes from
the corresponding input list, and no artifact occurs more often in the
output than in the input (sub-multiset; nothing invented or
duplicated). -/
theorem resolve_submultiset (d : Int) (input_dict : List (String × List Artifact)) :
    ∀ kv ∈ _resolve d input_dict,
      ∃ l, (kv.1, l) ∈ input_dict ∧
        (∀ a ∈ kv.2, a ∈ l) ∧
        ∀ a : Artifact, kv.2.count a ≤ l.count a := by
  intro kv hkv
  obtain ⟨kv0, hkv0, rfl⟩ := List.mem_map.mp hkv
  obtain ⟨m, hm⟩ := resolveChannel_eq_take d kv0.2
  refine ⟨kv0.2, by simpa using hkv0, ?_, ?_⟩
  · intro a ha
    show a ∈ kv0.2
    rw [show ((kv0.1, resolveChannel d kv0.2) : String × List Artifact).2 =
      resolveChannel d kv0.2 from rfl, hm] at ha
    exact (pySorted_perm kv0.2).mem_iff.mp ((List.take_sublist m _).subset ha)
  · intro a
    show (resolveChannel d kv0.2).count a ≤ kv0.2.count a
    rw [hm]
    calc ((pySorted kv0.2).take m).count a ≤ (pySorted kv0.2).count a :=
          (List.take_sublist m _).count_le a
      _ = kv0.2.count a := (pySorted_perm kv0.2).count_eq a

/-- C2 counterexample: `desired_count = 0` is not rejected; the
operation silently produces a result (every channel truncated to the
empty list) instead of signalling an invalid-configuration error. -/
theorem resolve_artifacts_no_validation_cex :
    resolve_artifacts 0 [("model", [⟨3, 0⟩])] = some [("model", [])] := by decide

/-- C2 (amended): the code performs no validation of `desired_count`;
with `desired_count = 0` the min-count check is vacuously satisfied and
`resolve_artifacts` returns a result mapping every channel to the empty
list, with no error signalled. -/
theorem resolve_artifacts_zero_count (input_dict : List (String × List Artifact)) :
    resolve_artifacts 0 input_dict =
      some (input_dict.map (fun kv => (kv.1, ([] : List Artifact)))) := by
  have hchan : ∀ l : List Artifact, resolveChannel 0 l = [] := by
    intro l
    have h0 : min ((pySorted l).length : Int) 0 = 0 :=
      min_eq_right (Int.ofNat_nonneg _)
    simp [resolveChannel, pySliceUpTo, h0]
  have hres : _resolve 0 input_dict = input_dict.map (fun kv => (kv.1, [])) := by
    simp [_resolve, hchan]
  simp only [resolve_artifacts, hres]
  rw [if_pos]
  rw [List.all_eq_true]
  intro kv hkv
  simp

/-- C6: the selection is a pure function: two invocations with equal
desired counts and equal input mappings give identical results. -/
theorem resolve_artifacts_deterministic (d d' : Int)
    (input_dict input_dict' : List (String × List Artifact))
    (hd : d = d') (hi : input_dict = input_dict') :
    resolve_artifacts d input_dict = resolve_artifacts d' input_dict' := by
  rw [hd, hi]

/-- C8: the spec's two concrete examples, evaluated on the embedding. -/
theorem resolve_artifacts_spec_examples :
    resolve_artifacts 1 [("model", [⟨3, 0⟩, ⟨7, 1⟩, ⟨5, 2⟩])] =
      some [("model", [⟨7, 1⟩])] ∧
    resolve_artifacts 2 [("model", [⟨3, 0⟩, ⟨7, 1⟩])] =
      some [("model", [⟨7, 1⟩, ⟨3, 0⟩])] :=
  ⟨by decide, by decide⟩

/-- C9: for the empty input mapping the min-count check quantifies over
zero channels, so the result is the (non-unresolved) empty mapping. -/
theorem resolve_artifacts_empty (d : Int) (_hd : 1 ≤ d) :
    resolve_artifacts d [] = some [] := rfl

/-- C10: a non-unresolved result has exactly the input's channel keys,
in the same order (so in particular the same key set). -/
theorem resolve_artifacts_keys (d : Int) (input_dict out : List (String × List Artifact))
    (h : resolve_artifacts d input_dict = some out) :
    out.map Prod.fst = input_dict.map Prod.fst := by
  have hout : out = _resolve d input_dict := by
    simp only [resolve_artifacts] at h
    split at h
    · injection h with h
      exact h.symm
    · cases h
  subst hout
  unfold _resolve
  rw [List.map_map]
  rfl

/-- The heap-level `_resolve` only appends fresh cells: every
pre-existing cell reads the same afterwards. -/
theorem resolveHeap_preserves (d : Int) :
    ∀ (input_dict : List (String × Nat)) (h : ListHeap) (r : Nat), r < h.length →
      (resolveHeap d input_dict h).2.getD r [] = h.getD r [] := by
  intro input_dict
  induction input_dict with
  | nil =>
    intro h r hr
    rfl
  | cons kv rest ih =>
    intro h r hr
    obtain ⟨k, rr⟩ := kv
    simp only [resolveHeap]
    rw [ih (h ++ [resolveChannel d (h.getD rr [])]) r
      (by rw [List.length_append]; omega)]
    exact List.getD_append _ _ _ _ hr

/-- The heap-level `_resolve` computes the same mapping as the
functional `_resolve`: reading each result reference in the final heap
gives `_resolve` of the input read in the initial heap. -/
theorem resolveHeap_agrees (d : Int) :
    ∀ (input_dict : List (String × Nat)) (h : ListHeap),
      (∀ kv ∈ input_dict, kv.2 < h.length) →
      (resolveHeap d input_dict h).1.map
          (fun kv => (kv.1, (resolveHeap d input_dict h).2.getD kv.2 [])) =
        _resolve d (input_dict.map (fun kv => (kv.1, h.getD kv.2 []))) := by
  intro input_dict
  induction input_dict with
  | nil =>
    intro h _
    rfl
  | cons kv rest ih =>
    intro h hwf
    obtain ⟨k, rr⟩ := kv
    have hwf' : ∀ kv ∈ rest, kv.2 < (h ++ [resolveChannel d (h.getD rr [])]).length := by
      intro kv hkv
      rw [List.length_append]
      have := hwf kv (List.mem_cons_of_mem _ hkv)
      omega
    simp only [resolveHeap, List.map_cons, _resolve]
    have hfresh : (resolveHeap d rest
          (h ++ [resolveChannel d (h.getD rr [])])).2.getD h.length [] =
        resolveChannel d (h.getD rr []) := by
      rw [resolveHeap_preserves d rest _ h.length (by simp)]
      simp [List.getD_eq_getElem?_getD, List.getElem?_concat_length]
    rw [hfresh]
    have hrest := ih (h ++ [resolveChannel d (h.getD rr [])]) hwf'
    rw [hrest]
    unfold _resolve
    congr 1
    rw [List.map_map, List.map_map]
    apply List.map_congr_left
    intro kv hkv
    simp only [Function.comp_apply]
    rw [List.getD_append _ _ _ _ (hwf kv (List.mem_cons_of_mem _ hkv))]

/-- C7: `resolve_artifacts` never mutates its caller-owned inputs: in
the heap model every pre-existing list object reads the same after the
call (sorting allocates new lists), and the result read from the final
heap is exactly the functional `_resolve` of the input read from the
initial heap. -/
theorem resolve_artifacts_no_mutation (d : Int)
    (input_dict : List (String × Nat)) (h : ListHeap)
    (hwf : ∀ kv ∈ input_dict, kv.2 < h.length) :
    (∀ r : Nat, r < h.length →
      (resolve_artifactsHeap d input_dict h).2.getD r [] = h.getD r []) ∧
    (resolveHeap d input_dict h).1.map
        (fun kv => (kv.1, (resolveHeap d input_dict h).2.getD kv.2 [])) =
      _resolve d (input_dict.map (fun kv => (kv.1, h.getD kv.2 []))) := by
  constructor
  · intro r hr
    have hstep := resolveHeap_preserves d input_dict h r hr
    simp only [resolve_artifactsHeap]
    split
    · exact hstep
    · exact hstep
  · exact resolveHeap_agrees d input_dict h hwf

/-! ## Witnesses -/

/-- Witness for C1 at the spec's Example 3 input. -/
theorem resolve_artifacts_all_or_nothing_witness :
    ((resolve_artifacts 2 exInput2).isSome ↔
        ∀ kv ∈ exInput2, (2 : Int) ≤ (kv.2.length : Int)) ∧
    (∀ out, resolve_artifacts 2 exInput2 = some out →
        ∀ kv ∈ out, (kv.2.length : Int) = 2) ∧
    ((∃ kv ∈ exInput2, (kv.2.length : Int) < 2) →
        resolve_artifacts 2 exInput2 = none) :=
  resolve_artifacts_all_or_nothing 2 (by decide) exInput2

/-- Witness for C3 at a concrete three-artifact channel. -/
theorem resolve_sorted_stable_witness :
    (("model", resolveChannel 1 [⟨3, 0⟩, ⟨7, 1⟩, ⟨5, 2⟩]) ∈ _resolve 1 exInput3) ∧
    (resolveChannel 1 [(⟨3, 0⟩ : Artifact), ⟨7, 1⟩, ⟨5, 2⟩]).Pairwise artifactGe ∧
    (∀ v : Int, ∃ rest,
      [(⟨3, 0⟩ : Artifact), ⟨7, 1⟩, ⟨5, 2⟩].filter (fun a => a.id == v) =
        (resolveChannel 1 [(⟨3, 0⟩ : Artifact), ⟨7, 1⟩, ⟨5, 2⟩]).filter
          (fun a => a.id == v) ++ rest) :=
  resolve_sorted_stable 1 exInput3 ("model", [⟨3, 0⟩, ⟨7, 1⟩, ⟨5, 2⟩]) (by decide)

/-- Witness for C4 at a concrete two-artifact channel. -/
theorem resolveChannel_truncation_witness :
    (("data", resolveChannel 2 [⟨1, 1⟩, ⟨2, 2⟩]) ∈ _resolve 2 exInput2) ∧
    resolveChannel 2 [(⟨1, 1⟩ : Artifact), ⟨2, 2⟩] =
      (pySorted [(⟨1, 1⟩ : Artifact), ⟨2, 2⟩]).take
        (min (pySorted [(⟨1, 1⟩ : Artifact), ⟨2, 2⟩]).length (2 : Int).toNat) ∧
    (resolveChannel 2 [(⟨1, 1⟩ : Artifact), ⟨2, 2⟩]).length ≤ (2 : Int).toNat :=
  resolveChannel_truncation 2 (by decide) exInput2 ("data", [⟨1, 1⟩, ⟨2, 2⟩]) (by decide)

/-- Witness for C5 at a concrete resolved channel. -/
theorem resolve_submultiset_witness :
    ∃ l, (("model" : String), l) ∈ exInput3 ∧
      (∀ a ∈ [(⟨7, 1⟩ : Artifact)], a ∈ l) ∧
      ∀ a : Artifact, [(⟨7, 1⟩ : Artifact)].count a ≤ l.count a :=
  resolve_submultiset 1 exInput3 ("model", [⟨7, 1⟩]) (by decide)

/-- Witness for C6: two identical invocations. -/
theorem resolve_artifacts_deterministic_witness :
    resolve_artifacts 1 exInput1 = resolve_artifacts 1 exInput1 :=
  resolve_artifacts_deterministic 1 1 exInput1 exInput1 rfl rfl

/-- Witness for C7 at a one-cell heap. -/
theorem resolve_artifacts_no_mutation_witness :
    (∀ r : Nat, r < exHeap.length →
      (resolve_artifactsHeap 1 exHeapInput exHeap).2.getD r [] = exHeap.getD r []) ∧
    (resolveHeap 1 exHeapInput exHeap).1.map
        (fun kv => (kv.1, (resolveHeap 1 exHeapInput exHeap).2.getD kv.2 [])) =
      _resolve 1 (exHeapInput.map (fun kv => (kv.1, exHeap.getD kv.2 []))) :=
  resolve_artifacts_no_mutation 1 exHeapInput exHeap (by decide)

/-- Witness for C9 at `desired_count = 1`. -/
theorem resolve_artifacts_empty_witness :
    resolve_artifacts 1 [] = some [] :=
  resolve_artifacts_empty 1 (by decide)

/-- Witness for C10 at a concrete successful resolution. -/
theorem resolve_artifacts_keys_witness :
    ([("model", [(⟨7, 1⟩ : Artifact)])] : List (String × List Artifact)).map Prod.fst =
      exInput3.map Prod.fst :=
  resolve_artifacts_keys 1 exInput3 [("model", [⟨7, 1⟩])] (by decide)
